import Mathlib

/-!
Shallow embedding of the AgenticMentor knowledge-retrieval core
(`src/agents/memory_agent.py`, `src/knowledge/search.py`,
`src/knowledge/vector_store.py`, `src/utils/json_parser.py`,
`src/llm_client.py`, `src/agents/knowledge_synthesis_agent.py`).

Python strings are modelled as `List Char`, Python floats as `ℚ`,
Python `None`-able values as `Option`, raised exceptions as `Except`.
-/

namespace AgenticMentor

/-! ### Python string primitives -/

/-- The ASCII whitespace characters recognised by Python's `str.split()`,
`str.strip()` and the regex class `\s`. -/
def pyWs (c : Char) : Bool :=
  c = ' ' || c = '\t' || c = '\n' || c = '\r' || c = '\x0b' || c = '\x0c'

/-- Python `str.lower()` (ASCII fragment). -/
def pyLower (s : List Char) : List Char := s.map Char.toLower

/-- Python `str.strip()`: drop whitespace from both ends. -/
def pyStrip (s : List Char) : List Char :=
  ((s.dropWhile pyWs).reverse.dropWhile pyWs).reverse

/-- Auxiliary splitter for Python `str.split()`: `acc` is the current word,
accumulated in reverse. -/
def pySplitAux : List Char → List Char → List (List Char)
  | [], acc => if acc = [] then [] else [acc.reverse]
  | c :: cs, acc =>
    if pyWs c then
      if acc = [] then pySplitAux cs [] else acc.reverse :: pySplitAux cs []
    else pySplitAux cs (c :: acc)

/-- Python `str.split()` with no argument: split on whitespace runs,
dropping empty fragments. -/
def pySplit (s : List Char) : List (List Char) := pySplitAux s []

/-- Python's `needle in haystack` substring test. -/
def pyIn (needle : List Char) : List Char → Bool
  | [] => needle.isPrefixOf []
  | c :: cs => needle.isPrefixOf (c :: cs) || pyIn needle cs

/-! ### MemoryAgent (`src/agents/memory_agent.py`) -/

/-- `src/models.py` `AgentMemory` (pydantic model); `timestamp` modelled
as an abstract tick. -/
structure AgentMemory where
  id : List Char
  query_id : List Char
  user_id : List Char
  query_text : List Char
  response : List Char
  satisfaction_score : Option Int
  learned_patterns : List (List Char)
  timestamp : Nat
deriving DecidableEq

/-- `src/models.py` `Query` (the fields `MemoryAgent` reads). -/
structure Query where
  id : List Char
  user_id : List Char
  query_text : List Char
deriving DecidableEq

/-- `src/models.py` `AgentResponse` (the fields `MemoryAgent` reads);
`sources` keeps only the count-relevant list. -/
structure AgentResponse where
  query_id : List Char
  response_text : List Char
  confidence_score : ℚ
  sources_count : Nat
deriving DecidableEq

/-- `MemoryAgent._calculate_similarity`: word-set Jaccard overlap of the
lowercased whitespace-token sets, `0` when either set is empty. -/
def calculate_similarity (text1 text2 : List Char) : ℚ :=
  let words1 := (pySplit (pyLower text1)).toFinset
  let words2 := (pySplit (pyLower text2)).toFinset
  if words1 = ∅ ∨ words2 = ∅ then 0
  else ((words1 ∩ words2).card : ℚ) / ((words1 ∪ words2).card : ℚ)

/-- The append-then-evict step of `MemoryAgent._store_memory`:
`self.memories.append(memory)` followed by `pop(0)` when the size
limit is exceeded. -/
def storeMemoryStep (memory_size : Nat) (memories : List AgentMemory)
    (memory : AgentMemory) : List AgentMemory :=
  let ms := memories ++ [memory]
  if memory_size < ms.length then ms.tail else ms

/-- A finite sequence of successful `store` operations starting from the
empty memory list. -/
def storeMemoryAll (memory_size : Nat) (entries : List AgentMemory) :
    List AgentMemory :=
  entries.foldl (storeMemoryStep memory_size) []

/-- `MemoryAgent._retrieve_memory`: keep memories whose similarity to the
query is strictly greater than `0.3`, sort descending by similarity,
truncate to `limit`.  Python's stable `list.sort(..., reverse=True)` is
modelled by `List.insertionSort` with the reflexive descending relation. -/
def retrieveMemory (memories : List AgentMemory) (query_text : List Char)
    (limit : Nat) : List (AgentMemory × ℚ) :=
  let relevant := memories.filterMap (fun m =>
    let s := calculate_similarity query_text m.query_text
    if (3 : ℚ)/10 < s then some (m, s) else none)
  (relevant.insertionSort (fun p q => q.2 ≤ p.2)).take limit

/-- `MemoryAgent._extract_patterns`: rule-based pattern tags.  Note the
Python truthiness guard `if satisfaction_score and ...`: a score of `0`
is falsy and never tags. -/
def extractPatterns (query : Query) (response : AgentResponse)
    (satisfaction_score : Option Int) : List (List Char) :=
  let p1 : List (List Char) :=
    match satisfaction_score with
    | some s =>
      if s ≠ 0 ∧ 4 ≤ s ∧ 200 < response.response_text.length then
        ["detailed_responses_high_satisfaction".toList] else []
    | none => []
  let p2 : List (List Char) :=
    match satisfaction_score with
    | some s =>
      if s ≠ 0 ∧ s ≤ 2 ∧ response.response_text.length < 100 then
        ["short_responses_low_satisfaction".toList] else []
    | none => []
  let technical_keywords := ["code".toList, "implementation".toList,
    "api".toList, "database".toList, "config".toList]
  let p3 : List (List Char) :=
    if technical_keywords.any (fun k => pyIn k (pyLower query.query_text)) ∧
        pyIn ("```".toList) response.response_text then
      ["technical_queries_need_code_examples".toList] else []
  let process_keywords := ["how to".toList, "process".toList,
    "steps".toList, "procedure".toList]
  let p4 : List (List Char) :=
    if process_keywords.any (fun k => pyIn k (pyLower query.query_text)) ∧
        (pyIn ("1.".toList) response.response_text ∨
         pyIn ("step".toList) (pyLower response.response_text)) then
      ["process_queries_need_step_by_step".toList] else []
  let p5 : List (List Char) :=
    if (4 : ℚ)/5 < response.confidence_score ∧ 2 < response.sources_count then
      ["high_confidence_with_multiple_sources".toList] else []
  p1 ++ p2 ++ p3 ++ p4 ++ p5

/-- In-place update of the first memory whose `query_id` matches, as done
by `_learn_from_interaction` when an existing memory is found. -/
def updateExistingMemory (q : Query) (response : AgentResponse)
    (satisfaction_score : Option Int) (patterns : List (List Char))
    (now : Nat) : List AgentMemory → List AgentMemory
  | [] => []
  | m :: ms =>
    if m.query_id = q.id then
      { m with
        response := response.response_text
        satisfaction_score := satisfaction_score
        learned_patterns := m.learned_patterns ++ patterns
        timestamp := now } :: ms
    else m :: updateExistingMemory q response satisfaction_score patterns now ms

/-- `MemoryAgent._learn_from_interaction` (memory-list effect): update the
first memory with a matching `query_id`, otherwise append a new entry.
No size limit is enforced on the append path. -/
def learnFromInteraction (memories : List AgentMemory) (q : Query)
    (response : AgentResponse) (satisfaction_score : Option Int)
    (new_id : List Char) (now : Nat) : List AgentMemory :=
  let patterns := extractPatterns q response satisfaction_score
  if memories.any (fun m => m.query_id = q.id) then
    updateExistingMemory q response satisfaction_score patterns now memories
  else
    memories ++ [{ id := new_id, query_id := q.id, user_id := q.user_id,
                   query_text := q.query_text,
                   response := response.response_text,
                   satisfaction_score := satisfaction_score,
                   learned_patterns := patterns, timestamp := now }]

/-! ### VectorStore and SemanticSearch
(`src/knowledge/vector_store.py`, `src/knowledge/search.py`) -/

/-- `src/models.py` `SourceType`. -/
inductive SourceType where
  | github | jira | confluence | slack | email | manual
deriving DecidableEq

/-- The `.value` string of a `SourceType` member. -/
def SourceType.value : SourceType → List Char
  | .github => "github".toList
  | .jira => "jira".toList
  | .confluence => "confluence".toList
  | .slack => "slack".toList
  | .email => "email".toList
  | .manual => "manual".toList

/-- `src/models.py` `KnowledgeChunk` (the fields the search path reads). -/
structure KnowledgeChunk where
  id : List Char
  content : List Char
  source_type : SourceType
  source_id : List Char
deriving DecidableEq

/-- A raw row of the external vector database's `query` answer:
a chunk reconstructed from the stored document/metadata plus its
distance to the query embedding. -/
structure DBRow where
  chunk : KnowledgeChunk
  distance : ℚ
deriving DecidableEq

/-- One entry of the list `VectorStore.search` returns:
`{"chunk": ..., "similarity_score": ...}`. -/
structure VSResult where
  chunk : KnowledgeChunk
  similarity_score : ℚ
deriving DecidableEq

/-- `src/models.py` `SearchResult`. -/
structure SearchResult where
  chunk : KnowledgeChunk
  similarity_score : ℚ
  relevance_explanation : List Char
deriving DecidableEq

/-- An embedding vector. -/
def Embedding := List ℚ

/-- `VectorStore.search`: embed the query, run the vector-database query,
convert each distance to a similarity `1 - distance`.  The embedding
call and the database query are external effects, modelled as `Except`
values; a failure in either is re-raised (the `except` block logs and
`raise`s). -/
def vectorStoreSearch (embed : Except (List Char) Embedding)
    (dbQuery : Embedding → Except (List Char) (List DBRow)) :
    Except (List Char) (List VSResult) :=
  match embed with
  | .error e => .error e
  | .ok emb =>
    match dbQuery emb with
    | .error e => .error e
    | .ok rows => .ok (rows.map (fun row => ⟨row.chunk, 1 - row.distance⟩))

/-- `SemanticSearch._generate_relevance_explanation`. -/
def generateRelevanceExplanation (chunk : KnowledgeChunk)
    (similarity_score : ℚ) : List Char :=
  let e1 : List Char :=
    if (4 : ℚ)/5 < similarity_score then "Very high semantic similarity".toList
    else if (3 : ℚ)/5 < similarity_score then "High semantic similarity".toList
    else if (2 : ℚ)/5 < similarity_score then "Moderate semantic similarity".toList
    else "Low semantic similarity".toList
  let e2 : List Char :=
    match chunk.source_type with
    | .github => "Code or documentation from repository".toList
    | .jira => "Issue tracking or project management information".toList
    | .confluence => "Documentation or knowledge base article".toList
    | .slack => "Team discussion or communication".toList
    | .email => "Email communication or decision".toList
    | .manual => "Manually added knowledge".toList
  let e3 : List Char :=
    if 1000 < chunk.content.length then "Detailed content".toList
    else if 500 < chunk.content.length then "Moderate detail".toList
    else "Brief content".toList
  List.intercalate ("; ".toList) [e1, e2, e3]

/-- `SemanticSearch.search`.  The wrapped `VectorStore.search` is abstracted
as a function `vs` of the requested candidate count (the code passes
`limit * 3` to over-fetch); its result carries the external effects.
Candidates are filtered by `min_similarity`, re-filtered with the fixed
relaxed floor `0.0001` if that leaves nothing, sorted descending by
similarity (Python's stable sort modelled by `List.insertionSort`) and
truncated to `limit`.  Any raised error is caught and `[]` returned. -/
def semanticSearch (vs : Nat → Except (List Char) (List VSResult))
    (limit : Nat) (min_similarity : ℚ) : List SearchResult :=
  match vs (limit * 3) with
  | .error _ => []
  | .ok results =>
    let search_results := results.filterMap (fun r =>
      if min_similarity ≤ r.similarity_score then
        some ⟨r.chunk, r.similarity_score,
              generateRelevanceExplanation r.chunk r.similarity_score⟩
      else none)
    let search_results :=
      if search_results = [] then
        results.filterMap (fun r =>
          if (1 : ℚ)/10000 ≤ r.similarity_score then
            some ⟨r.chunk, r.similarity_score,
                  generateRelevanceExplanation r.chunk r.similarity_score⟩
          else none)
      else search_results
    (search_results.insertionSort
      (fun a b => b.similarity_score ≤ a.similarity_score)).take limit

/-- The composed read path: `SemanticSearch.search` over
`VectorStore.search`, with the database query given the over-fetch
count. -/
def semanticSearchPipeline (embed : Except (List Char) Embedding)
    (db : Nat → Embedding → Except (List Char) (List DBRow))
    (limit : Nat) (min_similarity : ℚ) : List SearchResult :=
  semanticSearch (fun k => vectorStoreSearch embed (db k)) limit min_similarity

/-! ### KnowledgeSynthesisAgent._build_knowledge_graph
(`src/agents/knowledge_synthesis_agent.py`) -/

/-- A node of the knowledge graph: `{"id": "node_i", "label":
source_type.value, "content": content[:100] + "...", "similarity": s}`;
the index `i` stands for the string `"node_i"`. -/
structure GraphNode where
  node_id : Nat
  label : List Char
  content : List Char
  similarity : ℚ
deriving DecidableEq

/-- An edge of the knowledge graph: `{"from": "node_i", "to": "node_j",
"weight": w}`. -/
structure GraphEdge where
  from_ : Nat
  to_ : Nat
  weight : ℚ
deriving DecidableEq

/-- Fallback chunk for out-of-range indexing (never reached on the
in-range indices the construction uses). -/
def dummySearchResult : SearchResult := ⟨⟨[], [], .github, []⟩, 0, []⟩

/-- `KnowledgeSynthesisAgent._build_knowledge_graph`, graph part: one node
per retrieved chunk; an edge for every pair `i < j` with both
similarities strictly above `0.5`, weighted by their average. -/
def buildKnowledgeGraph (chunks : List SearchResult) :
    List GraphNode × List GraphEdge :=
  let nodes := chunks.enum.map (fun p =>
    { node_id := p.1, label := p.2.chunk.source_type.value,
      content := p.2.chunk.content.take 100 ++ "...".toList,
      similarity := p.2.similarity_score })
  let edges := (List.range chunks.length).flatMap (fun i =>
    ((List.range chunks.length).filter (fun j => i < j)).filterMap (fun j =>
      if (1 : ℚ)/2 < (chunks.getD i dummySearchResult).similarity_score ∧
          (1 : ℚ)/2 < (chunks.getD j dummySearchResult).similarity_score then
        some { from_ := i, to_ := j,
               weight := ((chunks.getD i dummySearchResult).similarity_score +
                 (chunks.getD j dummySearchResult).similarity_score) / 2 }
      else none))
  (nodes, edges)

/-! ### LLMClient (`src/llm_client.py`) -/

/-- The outcome of one `generate_content` attempt against the Gemini API:
either a response object (whose `text` may be empty, which Python
treats as falsy) or a raised exception carrying `str(e)`. -/
inductive GeminiAttempt where
  | resp (text : List Char)
  | exn (msg : List Char)
deriving DecidableEq

/-- The rate-limit test in `_call_gemini`:
`"429" in error_str and "quota" in error_str.lower()`. -/
def isRateLimitError (msg : List Char) : Bool :=
  pyIn ("429".toList) msg && pyIn ("quota".toList) (pyLower msg)

/-- Fixed reply when the Gemini response has no text. -/
def geminiEmptyReply : List Char :=
  "I apologize, but I couldn't generate a response. Please try again.".toList

/-- Fixed reply when the rate-limit retries are exhausted. -/
def geminiHighDemandReply : List Char :=
  "I'm currently experiencing high demand. Please try again in a few minutes.".toList

/-- The retry loop of `LLMClient._call_gemini`: one list element per loop
iteration (`range(max_retries)`), `retry_delay` threaded through.
Returns the result (`.error` models the final `raise`) together with
the list of delays slept.  On a rate-limit error with attempts left the
delay is slept and then doubled; on any other error with attempts left
the delay is slept unchanged.  The `[]` case is unreachable for
`max_retries = 3`; Python would fall off the loop returning `None`,
modelled as an empty success. -/
def callGeminiLoop : List GeminiAttempt → Nat →
    Except (List Char) (List Char) × List Nat
  | [], _ => (.ok [], [])
  | attempt :: rest, retry_delay =>
    match attempt with
    | .resp t => (if t = [] then .ok geminiEmptyReply else .ok t, [])
    | .exn m =>
      if isRateLimitError m then
        if rest ≠ [] then
          let (res, ds) := callGeminiLoop rest (retry_delay * 2)
          (res, retry_delay :: ds)
        else (.ok geminiHighDemandReply, [])
      else
        if rest ≠ [] then
          let (res, ds) := callGeminiLoop rest retry_delay
          (res, retry_delay :: ds)
        else (.error m, [])

/-- `LLMClient._call_gemini`: `max_retries = 3`, initial `retry_delay = 2`.
`attempts` supplies the outcome of each of the three loop iterations. -/
def callGemini (a1 a2 a3 : GeminiAttempt) :
    Except (List Char) (List Char) × List Nat :=
  callGeminiLoop [a1, a2, a3] 2

/-- `LLMClient.call_llm` on the Gemini path: any exception escaping
`_call_gemini` is caught and returned as the string
`f"Error: {str(e)}"`. -/
def callLlmGemini (a1 a2 a3 : GeminiAttempt) : List Char :=
  match (callGemini a1 a2 a3).1 with
  | .ok t => t
  | .error m => "Error: ".toList ++ m

/-! ### JSON utilities (`src/utils/json_parser.py`)

`json.loads` is modelled by a strict recursive-descent JSON parser
(`pyJsonLoads`): double-quoted strings only, quoted keys, no trailing
commas, numbers as `ℚ`.  Python `dict` semantics (insertion order kept,
a duplicate key overwrites the stored value in place) are modelled by
`pyDictInsert`. -/

/-- A parsed JSON value (Python `json.loads` result). -/
inductive JValue where
  | null
  | bool (b : Bool)
  | num (q : ℚ)
  | str (s : List Char)
  | arr (elems : List JValue)
  | obj (entries : List (List Char × JValue))

/-- Python `dict` insertion: a duplicate key overwrites its value in
place, a new key is appended. -/
def pyDictInsert {α : Type} (k : List Char) (v : α) :
    List (List Char × α) → List (List Char × α)
  | [] => [(k, v)]
  | (k0, v0) :: rest =>
    if k0 = k then (k0, v) :: rest else (k0, v0) :: pyDictInsert k v rest

/-- Python `dict` lookup. -/
def pyDictFind {α : Type} (d : List (List Char × α)) (k : List Char) :
    Option α :=
  (d.find? (fun e => decide (e.1 = k))).map (fun e => e.2)

/-- JSON whitespace (the characters `json.loads` skips). -/
def jsonWs (c : Char) : Bool := c = ' ' || c = '\t' || c = '\n' || c = '\r'

/-- Skip JSON whitespace. -/
def skipWs (s : List Char) : List Char := s.dropWhile jsonWs

/-- Hex digit value, if any. -/
def hexVal (c : Char) : Option Nat :=
  if '0' ≤ c ∧ c ≤ '9' then some (c.toNat - 48)
  else if 'a' ≤ c ∧ c ≤ 'f' then some (c.toNat - 87)
  else if 'A' ≤ c ∧ c ≤ 'F' then some (c.toNat - 55)
  else none

/-- Parse the body of a JSON string (the opening quote already consumed);
returns the decoded characters and the input after the closing quote.
`\uXXXX` decodes a single code unit (surrogate pairs are out of the
modelled fragment); unescaped control characters are rejected as in
strict `json.loads`. -/
def parseJString : List Char → Option (List Char × List Char)
  | [] => none
  | c :: cs =>
    if c = '"' then some ([], cs)
    else if c = '\\' then
      match cs with
      | [] => none
      | e :: cs2 =>
        if e = '"' ∨ e = '\\' ∨ e = '/' then
          (parseJString cs2).map (fun p => (e :: p.1, p.2))
        else if e = 'b' then
          (parseJString cs2).map (fun p => ('\x08' :: p.1, p.2))
        else if e = 'f' then
          (parseJString cs2).map (fun p => ('\x0c' :: p.1, p.2))
        else if e = 'n' then
          (parseJString cs2).map (fun p => ('\n' :: p.1, p.2))
        else if e = 'r' then
          (parseJString cs2).map (fun p => ('\r' :: p.1, p.2))
        else if e = 't' then
          (parseJString cs2).map (fun p => ('\t' :: p.1, p.2))
        else if e = 'u' then
          match cs2 with
          | h1 :: h2 :: h3 :: h4 :: cs3 =>
            match hexVal h1, hexVal h2, hexVal h3, hexVal h4 with
            | some a, some b, some c', some d =>
              (parseJString cs3).map (fun p =>
                (Char.ofNat (((a * 16 + b) * 16 + c') * 16 + d) :: p.1, p.2))
            | _, _, _, _ => none
          | _ => none
        else none
    else if c.toNat < 32 then none
    else (parseJString cs).map (fun p => (c :: p.1, p.2))

/-- Decimal digits to a natural number. -/
def digitsToNat (ds : List Char) : Nat :=
  ds.foldl (fun n c => 10 * n + (c.toNat - 48)) 0

/-- Parse a JSON number (strict grammar: optional minus, `0` or a
nonzero-led digit run, optional fraction, optional exponent). -/
def parseJNumber (s : List Char) : Option (JValue × List Char) :=
  let (neg, s1) :=
    match s with
    | '-' :: rest => (true, rest)
    | _ => (false, s)
  let intDigits := s1.takeWhile Char.isDigit
  if intDigits = [] then none
  else if intDigits.length > 1 ∧ intDigits.headD '0' = '0' then none
  else
    let s2 := s1.drop intDigits.length
    let (fracDigits, s3) :=
      match s2 with
      | '.' :: rest =>
        let fd := rest.takeWhile Char.isDigit
        (fd, rest.drop fd.length)
      | _ => ([], s2)
    if s2.headD ' ' = '.' ∧ fracDigits = [] then none
    else
      let hasExp := s3.headD ' ' = 'e' ∨ s3.headD ' ' = 'E'
      let (expNeg, s4) :=
        match s3 with
        | _ :: '-' :: rest => (true, rest)
        | _ :: '+' :: rest => (false, rest)
        | _ :: rest => (false, rest)
        | [] => (false, [])
      if hasExp then
        let expDigits := s4.takeWhile Char.isDigit
        if expDigits = [] then none
        else
          let mant : ℚ := (digitsToNat intDigits : ℚ) +
            (digitsToNat fracDigits : ℚ) / (10 ^ fracDigits.length : ℚ)
          let mant := if neg then -mant else mant
          let e := digitsToNat expDigits
          let v : ℚ := if expNeg then mant / (10 ^ e : ℚ) else mant * (10 ^ e : ℚ)
          some (.num v, s4.drop expDigits.length)
      else
        let mant : ℚ := (digitsToNat intDigits : ℚ) +
          (digitsToNat fracDigits : ℚ) / (10 ^ fracDigits.length : ℚ)
        some (.num (if neg then -mant else mant), s3)

mutual

/-- Parse one JSON value, fuel-bounded (the fuel strictly exceeds the
input length at top level, so it never runs out). -/
def parseJValue : Nat → List Char → Option (JValue × List Char)
  | 0, _ => none
  | fuel + 1, s =>
    match skipWs s with
    | [] => none
    | c :: cs =>
      if c = '"' then (parseJString cs).map (fun p => (.str p.1, p.2))
      else if c = '\x7b' then
        match skipWs cs with
        | '\x7d' :: rest => some (.obj [], rest)
        | rest => (parseJPairs fuel rest []).map (fun p => (.obj p.1, p.2))
      else if c = '[' then
        match skipWs cs with
        | ']' :: rest => some (.arr [], rest)
        | rest => (parseJItems fuel rest []).map (fun p => (.arr p.1, p.2))
      else if ("true".toList).isPrefixOf (c :: cs) then
        some (.bool true, (c :: cs).drop 4)
      else if ("false".toList).isPrefixOf (c :: cs) then
        some (.bool false, (c :: cs).drop 5)
      else if ("null".toList).isPrefixOf (c :: cs) then
        some (.null, (c :: cs).drop 4)
      else parseJNumber (c :: cs)

/-- Parse the members of a JSON object (positioned at a key), fuel-bounded. -/
def parseJPairs : Nat → List Char → List (List Char × JValue) →
    Option (List (List Char × JValue) × List Char)
  | 0, _, _ => none
  | fuel + 1, s, acc =>
    match skipWs s with
    | '"' :: cs =>
      match parseJString cs with
      | none => none
      | some (key, rest1) =>
        match skipWs rest1 with
        | ':' :: rest2 =>
          match parseJValue fuel rest2 with
          | none => none
          | some (v, rest3) =>
            match skipWs rest3 with
            | ',' :: rest4 => parseJPairs fuel rest4 (pyDictInsert key v acc)
            | '\x7d' :: rest4 => some (pyDictInsert key v acc, rest4)
            | _ => none
        | _ => none
    | _ => none

/-- Parse the elements of a JSON array (positioned at a value), fuel-bounded. -/
def parseJItems : Nat → List Char → List JValue →
    Option (List JValue × List Char)
  | 0, _, _ => none
  | fuel + 1, s, acc =>
    match parseJValue fuel s with
    | none => none
    | some (v, rest1) =>
      match skipWs rest1 with
      | ',' :: rest2 => parseJItems fuel rest2 (acc ++ [v])
      | ']' :: rest2 => some (acc ++ [v], rest2)
      | _ => none

end

/-- Python `json.loads`: parse one value and require only whitespace
after it (`Extra data` is an error). -/
def pyJsonLoads (s : List Char) : Option JValue :=
  match parseJValue (s.length + 1) s with
  | some (v, rest) => if skipWs rest = [] then some v else none
  | none => none

/-! #### The regex substitutions of `parse_llm_json` and
`_fix_common_json_issues`, specialised to the concrete patterns the code
uses (left-to-right non-overlapping matching as in `re.sub`/`re.findall`). -/

/-- `re.sub(tok + r'\s*', '', s)` for a literal token `tok`: delete every
occurrence of `tok` together with the following whitespace run.  Fuel
strictly exceeds the remaining input length. -/
def reSubTokenWs (tok : List Char) : Nat → List Char → List Char
  | 0, s => s
  | _, [] => []
  | fuel + 1, c :: cs =>
    if tok.isPrefixOf (c :: cs) then
      reSubTokenWs tok fuel (((c :: cs).drop tok.length).dropWhile pyWs)
    else c :: reSubTokenWs tok fuel cs

/-- `re.sub(r'```\s*$', '', s)`: remove the leftmost triple-backtick whose
whole suffix is whitespace (the `$` anchor, greedy `\s*`). -/
def reSubFenceEnd : List Char → List Char
  | [] => []
  | c :: cs =>
    if ("```".toList).isPrefixOf (c :: cs) ∧ ((c :: cs).drop 3).all pyWs then []
    else c :: reSubFenceEnd cs

/-- `re.sub(r'^```\s*', '', s)`: strip a leading triple backtick and the
following whitespace run. -/
def reSubFenceStart (s : List Char) : List Char :=
  if ("```".toList).isPrefixOf s then (s.drop 3).dropWhile pyWs else s

/-- First occurrence of `lit` in `s`: the remainder after it, if any. -/
def dropAfterFirst (lit : List Char) : List Char → Option (List Char)
  | [] => if lit.isPrefixOf [] then some [] else none
  | c :: cs =>
    if lit.isPrefixOf (c :: cs) then some ((c :: cs).drop lit.length)
    else dropAfterFirst lit cs

/-- The literals occur in `s` in order, disjointly. -/
def containsInOrder : List (List Char) → List Char → Bool
  | [], _ => true
  | lit :: lits, s =>
    match dropAfterFirst lit s with
    | some r => containsInOrder lits r
    | none => false

/-- After an opening brace: the run of non-brace characters, and the rest
after the closing brace — provided the first brace reached is `}`
(this is how `[^{}]*` bounds a match). -/
def spanToBrace : List Char → Option (List Char × List Char)
  | [] => none
  | c :: cs =>
    if c = '\x7d' then some ([], cs)
    else if c = '\x7b' then none
    else (spanToBrace cs).map (fun p => (c :: p.1, p.2))

/-- `re.findall` for a pattern of shape
`\x7b [^\x7b\x7d]* lit1 [^\x7b\x7d]* ... litn [^\x7b\x7d]* \x7d`
(patterns 1-5 of `parse_llm_json`): every match runs from a `{` to the
first following brace, which must be `}`, with the literals in order in
between. -/
def findallBraceLits (lits : List (List Char)) : Nat → List Char →
    List (List Char)
  | 0, _ => []
  | _, [] => []
  | fuel + 1, c :: cs =>
    if c = '\x7b' then
      match spanToBrace cs with
      | some (sp, rest) =>
        if containsInOrder lits sp then
          ('\x7b' :: (sp ++ ['\x7d'])) :: findallBraceLits lits fuel rest
        else findallBraceLits lits fuel cs
      | none => findallBraceLits lits fuel cs
    else findallBraceLits lits fuel cs

/-- Split `s` after its last `}` (prefix includes that `}`), if it has one. -/
def splitAfterLastRBrace (s : List Char) : Option (List Char × List Char) :=
  let tailLen := (s.reverse.takeWhile (fun c => ¬ c = '\x7d')).length
  if tailLen = s.length then none
  else some (s.take (s.length - tailLen), s.drop (s.length - tailLen))

/-- Drop past the leftmost in-order occurrence of each literal in turn. -/
def dropAfterFirstSeq : List (List Char) → List Char → Option (List Char)
  | [], s => some s
  | lit :: lits, s =>
    match dropAfterFirst lit s with
    | some r => dropAfterFirstSeq lits r
    | none => none

/-- `re.findall` with `re.DOTALL` for a pattern of shape
`\x7b .* lit1 .* ... litn .* \x7d` (patterns 6-8): a match runs from a
`{` followed by the literals in order to the last `}` after them
(greedy `.*`). -/
def findallDotLits (lits : List (List Char)) : Nat → List Char →
    List (List Char)
  | 0, _ => []
  | _, [] => []
  | fuel + 1, c :: cs =>
    if c = '\x7b' then
      match dropAfterFirstSeq lits cs with
      | some r =>
        match splitAfterLastRBrace r with
        | some (p, q) =>
          ('\x7b' :: (cs.take (cs.length - r.length) ++ p)) ::
            findallDotLits lits fuel q
        | none => findallDotLits lits fuel cs
      | none => findallDotLits lits fuel cs
    else findallDotLits lits fuel cs

/-- Python regex `\w` (ASCII fragment). -/
def isWordChar (c : Char) : Bool := c.isAlpha || c.isDigit || c = '_'

/-- `re.sub(r'([^\\])"([^"]*)"([^"]*)"', r'\1"\2\\"\3"', text)`:
escape the middle of three consecutive quotes not preceded by a
backslash (first fix of `_fix_common_json_issues`). -/
def fixQuotes : Nat → List Char → List Char
  | 0, s => s
  | _, [] => []
  | fuel + 1, c0 :: rest =>
    if c0 = '\\' then c0 :: fixQuotes fuel rest
    else
      match rest with
      | '"' :: r1 =>
        let a := r1.takeWhile (fun c => ¬ c = '"')
        match r1.drop a.length with
        | '"' :: r3 =>
          let b := r3.takeWhile (fun c => ¬ c = '"')
          match r3.drop b.length with
          | '"' :: r5 =>
            c0 :: '"' :: (a ++ '\\' :: '"' :: (b ++ '"' :: fixQuotes fuel r5))
          | _ => c0 :: fixQuotes fuel rest
        | _ => c0 :: fixQuotes fuel rest
      | _ => c0 :: fixQuotes fuel rest

/-- `re.sub(r'(\s*)(\w+)(\s*):', r'\1"\2"\3:', text)`: wrap bare keys in
quotes (second fix). -/
def quoteBareKeys : Nat → List Char → List Char
  | 0, s => s
  | _, [] => []
  | fuel + 1, c :: cs =>
    let ws1 := (c :: cs).takeWhile pyWs
    let s1 := (c :: cs).drop ws1.length
    let w := s1.takeWhile isWordChar
    let s2 := s1.drop w.length
    let ws2 := s2.takeWhile pyWs
    let s3 := s2.drop ws2.length
    if w ≠ [] ∧ s3.headD ' ' = ':' then
      ws1 ++ '"' :: (w ++ '"' :: (ws2 ++ ':' :: quoteBareKeys fuel (s3.drop 1)))
    else c :: quoteBareKeys fuel cs

/-- `re.sub(r',(\s*[}\]])', r'\1', text)`: drop trailing commas before a
closing bracket (third fix). -/
def stripTrailingCommas : Nat → List Char → List Char
  | 0, s => s
  | _, [] => []
  | fuel + 1, c :: cs =>
    if c = ',' then
      let ws := cs.takeWhile pyWs
      match cs.drop ws.length with
      | b :: r2 =>
        if b = '\x7d' ∨ b = ']' then ws ++ b :: stripTrailingCommas fuel r2
        else ',' :: stripTrailingCommas fuel cs
      | [] => ',' :: stripTrailingCommas fuel cs
    else c :: stripTrailingCommas fuel cs

/-- `_fix_common_json_issues`: the three regex fixes above followed by the
global single-quote to double-quote replacement. -/
def fixCommonJsonIssues (text : List Char) : List Char :=
  let t1 := fixQuotes (text.length + 1) text
  let t2 := quoteBareKeys (t1.length + 1) t1
  let t3 := stripTrailingCommas (t2.length + 1) t2
  t3.map (fun c => if c = '\'' then '"' else c)

/-- `_validate_json_structure`: the value is a dict and, when
`expected_keys` is non-empty (truthy), every expected key is present. -/
def validateJsonStructure (parsed : JValue)
    (expected_keys : List (List Char)) : Bool :=
  match parsed with
  | .obj entries =>
    if expected_keys = [] then true
    else expected_keys.all (fun k => entries.any (fun e => decide (e.1 = k)))
  | _ => false

/-- One `try: parsed = json.loads(...)` block of `parse_llm_json`:
succeed only if the parse succeeds and validates. -/
def tryParseValidate (s : List Char) (expected_keys : List (List Char)) :
    Option JValue :=
  match pyJsonLoads s with
  | some v => if validateJsonStructure v expected_keys then some v else none
  | none => none

/-- All matches of the eight `json_patterns` of `parse_llm_json`, in
pattern order. -/
def jsonPatternMatches (cleaned : List Char) : List (List Char) :=
  let fuel := cleaned.length + 1
  findallBraceLits ["\"confidence\"".toList, "\"reasoning\"".toList,
    "\"follow_up\"".toList] fuel cleaned ++
  findallBraceLits ["\"quality_score\"".toList, "\"strengths\"".toList,
    "\"improvement_areas\"".toList] fuel cleaned ++
  findallBraceLits ["\"confidence\"".toList] fuel cleaned ++
  findallBraceLits ["\"quality_score\"".toList] fuel cleaned ++
  findallBraceLits [] fuel cleaned ++
  findallDotLits [] fuel cleaned ++
  findallDotLits ["\"confidence\"".toList] fuel cleaned ++
  findallDotLits ["\"quality_score\"".toList] fuel cleaned

/-- The double loop over patterns and matches: first candidate that
parses and validates wins. -/
def firstValidMatch (expected_keys : List (List Char)) :
    List (List Char) → Option JValue
  | [] => none
  | m :: ms =>
    match tryParseValidate m expected_keys with
    | some v => some v
    | none => firstValidMatch expected_keys ms

/-- `parse_llm_json`: strip, remove markdown fences and backticks, then
try direct parse, then the regex-extracted candidates, then the fixed-up
text; `none` when everything fails. -/
def parse_llm_json (response_text : List Char)
    (expected_keys : List (List Char)) : Option JValue :=
  if pyStrip response_text = [] then none
  else
    let t0 := pyStrip response_text
    let t1 := reSubTokenWs ("```json".toList) (t0.length + 1) t0
    let t2 := reSubFenceEnd t1
    let t3 := reSubFenceStart t2
    let t4 := reSubTokenWs ("```".toList) (t3.length + 1) t3
    let t5 := reSubTokenWs ("`".toList) (t4.length + 1) t4
    let cleaned := pyStrip t5
    match tryParseValidate cleaned expected_keys with
    | some v => some v
    | none =>
      match firstValidMatch expected_keys (jsonPatternMatches cleaned) with
      | some v => some v
      | none => tryParseValidate (fixCommonJsonIssues cleaned) expected_keys

/-- A Python value as stored in the `fallback_values` table of
`create_fallback_response` (floats, strings, string lists), with a
constructor for `None` so that "never `None`" is contentful. -/
inductive PyVal where
  | none
  | num (q : ℚ)
  | str (s : List Char)
  | strList (xs : List (List Char))
deriving DecidableEq

/-- The `fallback_values` table of `create_fallback_response`. -/
def fallbackValues : List (List Char × PyVal) :=
  [("confidence".toList, .num (1/2)),
   ("reasoning".toList, .str ("Unable to parse analysis response".toList)),
   ("follow_up".toList, .str
     ("Is there anything specific about this topic you'd like to know more about?".toList)),
   ("quality_score".toList, .num (1/2)),
   ("strengths".toList, .strList ["Response provided".toList]),
   ("improvement_areas".toList, .strList ["Unable to analyze".toList]),
   ("accuracy_score".toList, .num (1/2)),
   ("completeness_score".toList, .num (1/2)),
   ("clarity_score".toList, .num (1/2)),
   ("source_utilization_score".toList, .num (1/2)),
   ("confidence_appropriateness".toList, .num (1/2)),
   ("overall_assessment".toList, .str
     ("Unable to analyze response quality".toList))]

/-- `create_fallback_response`: the dict comprehension
`{key: fallback_values.get(key, "Unknown") for key in expected_keys}`. -/
def create_fallback_response (expected_keys : List (List Char)) :
    List (List Char × PyVal) :=
  (expected_keys.map (fun k =>
    (k, (pyDictFind fallbackValues k).getD (.str ("Unknown".toList))))).foldl
    (fun d p => pyDictInsert p.1 p.2 d) []

/-! ## Theorems -/

/-- C3: starting from an empty `MemoryAgent`, after any finite sequence of
`store` operations the memory list is exactly the suffix of the stored
entries that fits the capacity — so its length is
`min (number of stores) memory_size`, and on overflow the evicted entry
is always the oldest (first-appended) one (FIFO). -/
theorem c3_store_memory_bound_fifo (memory_size : Nat)
    (entries : List AgentMemory) :
    storeMemoryAll memory_size entries =
      entries.drop (entries.length - memory_size) ∧
    (storeMemoryAll memory_size entries).length =
      min entries.length memory_size := by
  suffices h : storeMemoryAll memory_size entries =
      entries.drop (entries.length - memory_size) by
    refine ⟨h, ?_⟩
    rw [h, List.length_drop]
    omega
  induction entries using List.reverseRecOn with
  | nil => simp [storeMemoryAll]
  | append_singleton xs x ih =>
    have hstep : storeMemoryAll memory_size (xs ++ [x]) =
        storeMemoryStep memory_size (storeMemoryAll memory_size xs) x := by
      simp [storeMemoryAll, List.foldl_append]
    rw [hstep, ih, storeMemoryStep]
    have hlen : (xs.drop (xs.length - memory_size)).length =
        xs.length - (xs.length - memory_size) := List.length_drop _ _
    by_cases hc : memory_size < (xs.drop (xs.length - memory_size) ++ [x]).length
    · simp only [if_pos hc]
      rw [List.length_append, hlen] at hc
      simp only [List.length_singleton] at hc
      have hms : memory_size ≤ xs.length := by omega
      rcases Nat.eq_zero_or_pos memory_size with h0 | hpos
      · subst h0
        simp [List.drop_length]
      · have h2 : (1 : Nat) ≤ (xs.drop (xs.length - memory_size)).length := by
          rw [hlen]; omega
        have h3 : (xs ++ [x]).length - memory_size ≤ xs.length := by
          rw [List.length_append]; simp only [List.length_singleton]; omega
        rw [← List.drop_one, List.drop_append_of_le_length h2, List.drop_drop,
            List.drop_append_of_le_length h3]
        have h4 : xs.length - memory_size + 1 =
            (xs ++ [x]).length - memory_size := by
          simp only [List.length_append, List.length_singleton]; omega
        rw [← h4]
    · simp only [if_neg hc]
      rw [List.length_append, hlen] at hc
      simp only [List.length_singleton] at hc
      have h0 : xs.length - memory_size = 0 := by omega
      have h0' : (xs ++ [x]).length - memory_size = 0 := by
        rw [List.length_append]; simp only [List.length_singleton]; omega
      rw [h0, h0']
      simp

/-- C10: the capacity bound is enforced only by `store`; when no existing
memory matches the interaction's query id, `learn` appends a new entry
with no eviction, so one `learn` call on an agent already holding
`memory_size` entries leaves `memory_size + 1` entries. -/
theorem c10_learn_exceeds_capacity (memory_size : Nat)
    (memories : List AgentMemory) (q : Query) (response : AgentResponse)
    (satisfaction_score : Option Int) (new_id : List Char) (now : Nat)
    (hfull : memories.length = memory_size)
    (hnone : ∀ m ∈ memories, m.query_id ≠ q.id) :
    (learnFromInteraction memories q response satisfaction_score
      new_id now).length = memory_size + 1 := by
  have hany : memories.any (fun m => m.query_id = q.id) = false := by
    simp only [List.any_eq_false, decide_eq_true_eq]
    exact hnone
  unfold learnFromInteraction
  rw [hany]
  simp [hfull]

/-- Witness for C10 at a concrete full agent. -/
theorem c10_learn_exceeds_capacity_witness :
    (learnFromInteraction
      [⟨"m1".toList, "q1".toList, "u".toList, "t".toList, "r".toList,
        Option.none, [], 0⟩]
      ⟨"q2".toList, "u".toList, "what".toList⟩
      ⟨"q2".toList, "ans".toList, 1/2, 0⟩ Option.none ("m2".toList) 1).length
      = 1 + 1 :=
  c10_learn_exceeds_capacity 1 _ _ _ _ _ _ (by decide) (by decide)

/-- Helper: descending insertion sort by a `ℚ` key, then `take`, is
adjacent-descending. -/
theorem chain'_take_insertionSort_desc {α : Type} (f : α → ℚ) (l : List α)
    (n : Nat) :
    List.Chain' (fun a b => f b ≤ f a)
      ((l.insertionSort (fun a b => f b ≤ f a)).take n) := by
  haveI : IsTotal α (fun a b => f b ≤ f a) := ⟨fun a b => le_total (f b) (f a)⟩
  haveI : IsTrans α (fun a b => f b ≤ f a) :=
    ⟨fun _ _ _ hab hbc => le_trans hbc hab⟩
  exact ((List.sorted_insertionSort _ l).sublist
    (List.take_sublist n _)).chain'

/-- Helper: a `filterMap` whose function is a guarded `some` is a `map`
over a `filter`. -/
theorem filterMap_guard_eq_map_filter {α β : Type} (p : α → Prop)
    [DecidablePred p] (g : α → β) (l : List α) :
    l.filterMap (fun a => if p a then some (g a) else none) =
      (l.filter (fun a => decide (p a))).map g := by
  induction l with
  | nil => rfl
  | cons a t ih => by_cases h : p a <;> simp [h, ih]

/-- Helper: a single stored memory below or at the strict floor is never
recalled. -/
theorem retrieveMemory_single_not_above (m : AgentMemory) (qt : List Char)
    (h : ¬ (3 : ℚ)/10 < calculate_similarity qt m.query_text) :
    retrieveMemory [m] qt 5 = [] := by
  unfold retrieveMemory
  simp [List.filterMap_cons, if_neg h]

/-- C6 counterexample: a memory at Jaccard similarity exactly `0.3` to the
query is excluded by `_retrieve_memory` (the code's floor is strict
`> 0.3`, not `≥ 0.3` as claimed). -/
theorem c6_recall_floor_counterexample :
    calculate_similarity ("a b c d e f".toList) ("a b c p q r s".toList) =
      3/10 ∧
    retrieveMemory
      [⟨"m".toList, "q".toList, "u".toList, "a b c p q r s".toList,
        "r".toList, Option.none, [], 0⟩]
      ("a b c d e f".toList) 5 = [] := by
  have hsim : calculate_similarity ("a b c d e f".toList)
      ("a b c p q r s".toList) = 3/10 := by
    unfold calculate_similarity
    rw [if_neg]
    · have hc1 : ((pySplit (pyLower ("a b c d e f".toList))).toFinset ∩
          (pySplit (pyLower ("a b c p q r s".toList))).toFinset).card = 3 := by
        decide
      have hc2 : ((pySplit (pyLower ("a b c d e f".toList))).toFinset ∪
          (pySplit (pyLower ("a b c p q r s".toList))).toFinset).card = 10 := by
        decide
      rw [hc1, hc2]
      norm_num
    · push_neg
      constructor
      · decide
      · decide
  refine ⟨hsim, retrieveMemory_single_not_above _ _ ?_⟩
  have hsim' : calculate_similarity ("a b c d e f".toList)
      (AgentMemory.query_text ⟨"m".toList, "q".toList, "u".toList,
        "a b c p q r s".toList, "r".toList, Option.none, [], 0⟩) = 3/10 := hsim
  rw [hsim']
  exact lt_irrefl _

/-- C6 (amended): `_retrieve_memory` returns entries of the stored list
whose word-set Jaccard similarity to the query is strictly greater than
`0.3` (entries at exactly the floor are excluded), each paired with that
similarity, sorted descending by similarity and truncated to the
requested limit; whenever the matching entries fit the limit, every one
of them appears. -/
theorem c6_recall_jaccard_sorted (memories : List AgentMemory)
    (query_text : List Char) (limit : Nat) :
    (∀ p ∈ retrieveMemory memories query_text limit,
      (3 : ℚ)/10 < p.2 ∧ p.1 ∈ memories ∧
      p.2 = calculate_similarity query_text p.1.query_text) ∧
    List.Chain' (fun p q => q.2 ≤ p.2)
      (retrieveMemory memories query_text limit) ∧
    (retrieveMemory memories query_text limit).length ≤ limit ∧
    ((memories.filter (fun m =>
        decide ((3 : ℚ)/10 < calculate_similarity query_text m.query_text))).length
        ≤ limit →
      ∀ m ∈ memories,
        (3 : ℚ)/10 < calculate_similarity query_text m.query_text →
        (m, calculate_similarity query_text m.query_text) ∈
          retrieveMemory memories query_text limit) := by
  have hrel : memories.filterMap (fun m =>
      let s := calculate_similarity query_text m.query_text
      if (3 : ℚ)/10 < s then some (m, s) else none) =
      (memories.filter (fun m =>
        decide ((3 : ℚ)/10 < calculate_similarity query_text m.query_text))).map
        (fun m => (m, calculate_similarity query_text m.query_text)) :=
    filterMap_guard_eq_map_filter _ _ memories
  refine ⟨?_, ?_, ?_, ?_⟩
  · intro p hp
    unfold retrieveMemory at hp
    have hp2 := List.mem_of_mem_take hp
    have hp3 := (List.perm_insertionSort
      (fun p q : AgentMemory × ℚ => q.2 ≤ p.2) _).mem_iff.mp hp2
    rw [hrel] at hp3
    rcases List.mem_map.mp hp3 with ⟨m, hm, rfl⟩
    have hm' := List.mem_filter.mp hm
    exact ⟨of_decide_eq_true hm'.2, hm'.1, rfl⟩
  · exact chain'_take_insertionSort_desc (fun p : AgentMemory × ℚ => p.2) _
      limit
  · exact List.length_take_le _ _
  · intro hfit m hm hsim
    unfold retrieveMemory
    have hmem : (m, calculate_similarity query_text m.query_text) ∈
        memories.filterMap (fun m =>
          let s := calculate_similarity query_text m.query_text
          if (3 : ℚ)/10 < s then some (m, s) else none) := by
      rw [hrel]
      exact List.mem_map.mpr ⟨m, List.mem_filter.mpr ⟨hm, decide_eq_true hsim⟩,
        rfl⟩
    have hsorted := (List.perm_insertionSort
      (fun p q : AgentMemory × ℚ => q.2 ≤ p.2)
      (memories.filterMap (fun m =>
        let s := calculate_similarity query_text m.query_text
        if (3 : ℚ)/10 < s then some (m, s) else none)))
    have hlen : ((memories.filterMap (fun m =>
        let s := calculate_similarity query_text m.query_text
        if (3 : ℚ)/10 < s then some (m, s) else none)).insertionSort
        (fun p q => q.2 ≤ p.2)).length ≤ limit := by
      rw [hsorted.length_eq, hrel, List.length_map]
      exact hfit
    rw [List.take_of_length_le hlen]
    exact hsorted.mem_iff.mpr hmem

/-- Witness for C6 at a concrete memory list. -/
theorem c6_recall_jaccard_sorted_witness :
    ((([⟨"m".toList, "q".toList, "u".toList, "how to test".toList,
        "r".toList, Option.none, [], 0⟩] : List AgentMemory).filter (fun m =>
        decide ((3 : ℚ)/10 <
          calculate_similarity ("how to test".toList) m.query_text))).length
        ≤ 5 →
      ∀ m ∈ ([⟨"m".toList, "q".toList, "u".toList, "how to test".toList,
        "r".toList, Option.none, [], 0⟩] : List AgentMemory),
        (3 : ℚ)/10 <
          calculate_similarity ("how to test".toList) m.query_text →
        (m, calculate_similarity ("how to test".toList) m.query_text) ∈
          retrieveMemory
            [⟨"m".toList, "q".toList, "u".toList, "how to test".toList,
              "r".toList, Option.none, [], 0⟩]
            ("how to test".toList) 5) :=
  (c6_recall_jaccard_sorted
    [⟨"m".toList, "q".toList, "u".toList, "how to test".toList,
      "r".toList, Option.none, [], 0⟩]
    ("how to test".toList) 5).2.2.2

/-- C7: every result list of `SemanticSearch.search` is adjacent-descending
in `similarity_score` and no longer than the requested limit. -/
theorem c7_search_sorted_and_bounded
    (vs : Nat → Except (List Char) (List VSResult)) (limit : Nat)
    (min_similarity : ℚ) :
    List.Chain' (fun a b => b.similarity_score ≤ a.similarity_score)
      (semanticSearch vs limit min_similarity) ∧
    (semanticSearch vs limit min_similarity).length ≤ limit := by
  unfold semanticSearch
  cases vs (limit * 3) with
  | error e => simp
  | ok results =>
    exact ⟨chain'_take_insertionSort_desc
        (fun r : SearchResult => r.similarity_score) _ limit,
      List.length_take_le _ _⟩

/-- Helper: taking at least one element of the descending sort of a
non-empty list is non-empty. -/
theorem take_insertionSort_desc_ne_nil {α : Type} (f : α → ℚ) (l : List α)
    (n : Nat) (hn : 1 ≤ n) (hl : l ≠ []) :
    (l.insertionSort (fun a b => f b ≤ f a)).take n ≠ [] := by
  have hlen : (l.insertionSort (fun a b => f b ≤ f a)).length = l.length :=
    (List.perm_insertionSort _ _).length_eq
  intro h
  have hlc := congrArg List.length h
  rw [List.length_take, hlen, List.length_nil] at hlc
  have hl0 : l.length ≠ 0 := fun h0 => hl (List.eq_nil_of_length_eq_zero h0)
  omega

/-- C1 counterexample: a single candidate with strictly positive
similarity `1/20000` is dropped even by the relaxed floor (`0.0001`),
so `search` returns `[]` although the best match has `s > 0`; also the
relaxed floor `0.0001` is one order of magnitude below the default
initial floor `0.001`, not two. -/
theorem c1_relaxation_counterexample :
    (0 : ℚ) < 1/20000 ∧
    (1 : ℚ)/10000 = ((1 : ℚ)/1000) / 10 ∧
    semanticSearch (fun _ =>
      .ok [⟨⟨"c1".toList, "content".toList, .github, "s1".toList⟩, 1/20000⟩])
      10 (1/1000) = [] := by
  refine ⟨by norm_num, by norm_num, ?_⟩
  have h1 : ¬ ((1000 : ℚ)⁻¹ ≤ 20000⁻¹) := by norm_num
  have h2 : ¬ ((10000 : ℚ)⁻¹ ≤ 20000⁻¹) := by norm_num
  simp [semanticSearch, List.filterMap_cons, if_neg h1, if_neg h2]

/-- C1 (amended): if the over-fetched candidate set contains a chunk whose
similarity is at least the fixed relaxed floor `0.0001` and the limit is
at least one, `search` returns a non-empty list even when the initial
`min_similarity` floor excludes every candidate; candidates below
`0.0001` may still be lost. -/
theorem c1_relaxed_floor_recovers
    (vs : Nat → Except (List Char) (List VSResult)) (limit : Nat)
    (min_similarity : ℚ) (results : List VSResult)
    (hvs : vs (limit * 3) = .ok results)
    (hex : ∃ r ∈ results, (1 : ℚ)/10000 ≤ r.similarity_score)
    (hlim : 1 ≤ limit) :
    semanticSearch vs limit min_similarity ≠ [] := by
  rcases hex with ⟨r, hr, hscore⟩
  simp only [semanticSearch, hvs]
  apply take_insertionSort_desc_ne_nil
    (fun s : SearchResult => s.similarity_score) _ _ hlim
  split
  · exact List.ne_nil_of_mem (List.mem_filterMap.mpr ⟨r, hr, if_pos hscore⟩)
  · next hne => exact hne

/-- Witness for C1 at a concrete candidate list. -/
theorem c1_relaxed_floor_recovers_witness :
    semanticSearch (fun _ =>
      .ok [⟨⟨"c1".toList, "content".toList, .github, "s1".toList⟩, 1/2⟩])
      10 (1/1000) ≠ [] :=
  c1_relaxed_floor_recovers _ 10 (1/1000)
    [⟨⟨"c1".toList, "content".toList, .github, "s1".toList⟩, 1/2⟩]
    rfl ⟨_, List.mem_singleton_self _, by norm_num⟩ (by norm_num)

/-- C4 counterexample: `VectorStore.search` does not return an empty
result list on failure — it re-raises the error, both when the
embedding step fails and when the embedding succeeds but the
vector-database query fails. -/
theorem c4_vector_store_raises_counterexample :
    (vectorStoreSearch (.error ("embedding failed".toList)) (fun _ => .ok []) ≠
       .ok [] ∧
     vectorStoreSearch (.error ("embedding failed".toList)) (fun _ => .ok []) =
       .error ("embedding failed".toList)) ∧
    (vectorStoreSearch (.ok [])
       (fun _ => .error ("database unreachable".toList)) ≠ .ok [] ∧
     vectorStoreSearch (.ok [])
       (fun _ => .error ("database unreachable".toList)) =
       .error ("database unreachable".toList)) := by
  refine ⟨⟨?_, rfl⟩, ⟨?_, rfl⟩⟩
  · intro h
    exact Except.noConfusion h
  · intro h
    exact Except.noConfusion h

/-- C4 (amended): a failure of the embedding step, or of the
vector-database query after a successful embedding, propagates out of
`VectorStore.search` as the raised error; it is the caller
`SemanticSearch.search` that catches it and returns the empty list in
both cases. -/
theorem c4_error_caught_by_semantic_search (e : List Char) (emb : Embedding)
    (dq : Embedding → Except (List Char) (List DBRow))
    (db : Nat → Embedding → Except (List Char) (List DBRow))
    (limit : Nat) (min_similarity : ℚ)
    (hdq : dq emb = .error e)
    (hdb : db (limit * 3) emb = .error e) :
    vectorStoreSearch (.error e) dq = .error e ∧
    vectorStoreSearch (.ok emb) dq = .error e ∧
    semanticSearchPipeline (.error e) db limit min_similarity = [] ∧
    semanticSearchPipeline (.ok emb) db limit min_similarity = [] := by
  refine ⟨rfl, ?_, rfl, ?_⟩
  · simp [vectorStoreSearch, hdq]
  · simp [semanticSearchPipeline, semanticSearch, vectorStoreSearch, hdb]

/-- Witness for C4 at a concrete failing embedding and a concrete failing
database query. -/
theorem c4_error_caught_by_semantic_search_witness :
    vectorStoreSearch (.error ("down".toList))
      (fun _ => .error ("down".toList)) = .error ("down".toList) ∧
    vectorStoreSearch (.ok [1])
      (fun _ => .error ("down".toList)) = .error ("down".toList) ∧
    semanticSearchPipeline (.error ("down".toList))
      (fun _ _ => .error ("down".toList)) 10 (1/1000) = [] ∧
    semanticSearchPipeline (.ok [1])
      (fun _ _ => .error ("down".toList)) 10 (1/1000) = [] :=
  c4_error_caught_by_semantic_search ("down".toList) [1]
    (fun _ => .error ("down".toList)) (fun _ _ => .error ("down".toList))
    10 (1/1000) rfl rfl

/-- C5 counterexample: three consecutive non-rate-limit provider failures
are slept through with a constant (not doubling) delay, the final
exception escapes `_call_gemini` as the raw message — there is no
`LLMCallError` type — and `call_llm` catches it and returns
`"Error: boom"` as an ordinary answer string instead of raising. -/
theorem c5_error_returned_as_string_counterexample :
    callLlmGemini (.exn ("boom".toList)) (.exn ("boom".toList))
      (.exn ("boom".toList)) = ("Error: boom".toList) ∧
    (callGemini (.exn ("boom".toList)) (.exn ("boom".toList))
      (.exn ("boom".toList))).1 = .error ("boom".toList) ∧
    (callGemini (.exn ("boom".toList)) (.exn ("boom".toList))
      (.exn ("boom".toList))).2 = [2, 2] := by
  refine ⟨rfl, rfl, rfl⟩

/-- C5 (amended): `_call_gemini` makes at most 3 attempts; rate-limited
failures back off with the delay doubling (2s then 4s) and end in a
fixed high-demand message string, non-rate-limit failures are retried
with a constant 2s delay and the last exception propagates out of
`_call_gemini`, where `call_llm` catches it and returns
`"Error: <message>"` as an ordinary answer string. -/
theorem c5_retry_and_error_handling (mq m : List Char)
    (hq : isRateLimitError mq = true) (hm : isRateLimitError m = false) :
    callGemini (.exn mq) (.exn mq) (.exn mq) =
      (.ok geminiHighDemandReply, [2, 4]) ∧
    callGemini (.exn m) (.exn m) (.exn m) = (.error m, [2, 2]) ∧
    callLlmGemini (.exn m) (.exn m) (.exn m) = "Error: ".toList ++ m := by
  refine ⟨?_, ?_, ?_⟩
  · simp [callGemini, callGeminiLoop, hq]
  · simp [callGemini, callGeminiLoop, hm]
  · simp [callLlmGemini, callGemini, callGeminiLoop, hm]

/-- Witness for C5 at concrete provider failure messages. -/
theorem c5_retry_and_error_handling_witness :
    (callGemini (.exn ("429 quota exceeded".toList))
      (.exn ("429 quota exceeded".toList))
      (.exn ("429 quota exceeded".toList)) =
      (.ok geminiHighDemandReply, [2, 4]) ∧
    callGemini (.exn ("boom".toList)) (.exn ("boom".toList))
      (.exn ("boom".toList)) = (.error ("boom".toList), [2, 2]) ∧
    callLlmGemini (.exn ("boom".toList)) (.exn ("boom".toList))
      (.exn ("boom".toList)) = "Error: ".toList ++ "boom".toList) :=
  c5_retry_and_error_handling ("429 quota exceeded".toList) ("boom".toList)
    (by decide) (by decide)

/-- C8: `_build_knowledge_graph` makes exactly one node per retrieved
chunk, and an edge exists exactly for the unordered pairs `i < j` of
distinct chunks whose similarity scores both exceed `0.5`, weighted by
the arithmetic mean of the two scores. -/
theorem c8_knowledge_graph_nodes_edges (chunks : List SearchResult) :
    (buildKnowledgeGraph chunks).1.length = chunks.length ∧
    ∀ e : GraphEdge, e ∈ (buildKnowledgeGraph chunks).2 ↔
      (e.from_ < e.to_ ∧ e.to_ < chunks.length ∧
       (1 : ℚ)/2 < (chunks.getD e.from_ dummySearchResult).similarity_score ∧
       (1 : ℚ)/2 < (chunks.getD e.to_ dummySearchResult).similarity_score ∧
       e.weight = ((chunks.getD e.from_ dummySearchResult).similarity_score +
         (chunks.getD e.to_ dummySearchResult).similarity_score) / 2) := by
  constructor
  · simp [buildKnowledgeGraph]
  · intro e
    rcases e with ⟨i, j, w⟩
    simp only [buildKnowledgeGraph, List.mem_flatMap, List.mem_filterMap,
      List.mem_filter, List.mem_range, decide_eq_true_eq]
    constructor
    · rintro ⟨i', hi', j', ⟨hj', hij'⟩, he⟩
      split at he
      · next hc =>
        rw [Option.some.injEq, GraphEdge.mk.injEq] at he
        obtain ⟨rfl, rfl, rfl⟩ := he
        exact ⟨hij', hj', hc.1, hc.2, rfl⟩
      · exact Option.noConfusion he
    · rintro ⟨hij, hj, hsi, hsj, hw⟩
      subst hw
      exact ⟨i, lt_trans hij hj, j, ⟨hj, hij⟩, by rw [if_pos ⟨hsi, hsj⟩]⟩

/-- Helper: lookup after a Python-dict insert. -/
theorem pyDictFind_insert {α : Type} (k0 : List Char) (v : α)
    (d : List (List Char × α)) (k : List Char) :
    pyDictFind (pyDictInsert k0 v d) k =
      if k = k0 then some v else pyDictFind d k := by
  induction d with
  | nil =>
    by_cases h : k0 = k
    · subst h
      simp [pyDictInsert, pyDictFind, List.find?]
    · simp [pyDictInsert, pyDictFind, List.find?, h, Ne.symm h]
  | cons e rest ih =>
    obtain ⟨a, b⟩ := e
    by_cases h1 : a = k0
    · by_cases h2 : a = k
      · have hk0 : k = k0 := by rw [← h2, h1]
        simp [pyDictInsert, pyDictFind, List.find?, h1, h2, hk0]
      · have hk0 : ¬ (k = k0) := by
          rw [← h1]; exact fun hh => h2 hh.symm
        simp [pyDictInsert, pyDictFind, List.find?, h1, h2, hk0, Ne.symm hk0]
    · by_cases h2 : a = k
      · have hk0 : ¬ (k = k0) := fun hh => h1 (h2.symm ▸ hh)
        simp [pyDictInsert, pyDictFind, List.find?, h1, h2, hk0]
      · simp only [pyDictInsert, if_neg h1]
        simp only [pyDictFind, List.find?] at ih ⊢
        simp [h2, ih]

/-- Helper: lookup in the dict built from `keys.map (fun k => (k, f k))`. -/
theorem pyDictFind_build {α : Type} (f : List Char → α)
    (keys : List (List Char)) (k : List Char) (d : List (List Char × α)) :
    pyDictFind ((keys.map (fun k => (k, f k))).foldl
      (fun d p => pyDictInsert p.1 p.2 d) d) k =
      if k ∈ keys then some (f k) else pyDictFind d k := by
  induction keys generalizing d with
  | nil => simp
  | cons k0 rest ih =>
    simp only [List.map_cons, List.foldl_cons]
    rw [ih]
    by_cases hr : k ∈ rest
    · simp [hr, List.mem_cons]
    · by_cases h0 : k = k0
      · subst h0
        simp [hr, pyDictFind_insert]
      · simp [hr, h0, pyDictFind_insert, List.mem_cons]

/-- Helper: a defaulted lookup never returns a value outside the table
and the default. -/
theorem pyDictFind_getD_ne {α : Type} (d : List (List Char × α)) (dflt bad : α)
    (hd : ∀ e ∈ d, e.2 ≠ bad) (hdflt : dflt ≠ bad) (k : List Char) :
    (pyDictFind d k).getD dflt ≠ bad := by
  unfold pyDictFind
  cases hf : d.find? (fun e => decide (e.1 = k)) with
  | none => simpa using hdflt
  | some e =>
    exact hd e (List.mem_of_find?_eq_some hf)

/-- C9: `create_fallback_response` returns an entry for every expected key
and never the value `None` — table keys get their fixed defaults, other
keys the placeholder string `"Unknown"`. -/
theorem c9_fallback_completeness (expected_keys : List (List Char))
    (k : List Char) (hk : k ∈ expected_keys) :
    ∃ v, pyDictFind (create_fallback_response expected_keys) k = some v ∧
      v ≠ PyVal.none := by
  refine ⟨(pyDictFind fallbackValues k).getD (.str ("Unknown".toList)),
    ?_, ?_⟩
  · unfold create_fallback_response
    rw [pyDictFind_build]
    simp [hk]
  · refine pyDictFind_getD_ne _ _ _ ?_ (by decide) k
    decide

/-- Witness for C9 at a concrete key list (one table key, one unknown
key). -/
theorem c9_fallback_completeness_witness :
    ∃ v, pyDictFind
      (create_fallback_response ["confidence".toList, "zzz".toList])
      ("confidence".toList) = some v ∧ v ≠ PyVal.none :=
  c9_fallback_completeness ["confidence".toList, "zzz".toList]
    ("confidence".toList) (by decide)

/-- C2: `parse_llm_json` on the code-fenced, single-quoted input of
Scenario C with the expected keys `confidence`, `reasoning`,
`follow_up` parses successfully (fence stripping, then the quote fixup
of `_fix_common_json_issues`) to the mapping
`{confidence: 0.8, reasoning: "ok", follow_up: "next?"}`. -/
theorem c2_parse_llm_json_scenario_c :
    parse_llm_json
      ("```json\n\x7b'confidence': 0.8, 'reasoning': 'ok', 'follow_up': 'next?'\x7d\n```".toList)
      ["confidence".toList, "reasoning".toList, "follow_up".toList] =
      some (.obj [("confidence".toList, .num (4/5)),
                  ("reasoning".toList, .str ("ok".toList)),
                  ("follow_up".toList, .str ("next?".toList))]) := by
  have h : parse_llm_json
      ("```json\n\x7b'confidence': 0.8, 'reasoning': 'ok', 'follow_up': 'next?'\x7d\n```".toList)
      ["confidence".toList, "reasoning".toList, "follow_up".toList] =
      some (.obj [("confidence".toList,
                    .num ((0 : ℚ) + (8 : ℚ) / 10 ^ (1 : Nat))),
                  ("reasoning".toList, .str ("ok".toList)),
                  ("follow_up".toList, .str ("next?".toList))]) := by rfl
  rw [h]
  norm_num

end AgenticMentor
